import Mathlib

/-!
Verification of the financial-analysis core of the EMBA_capstone repository.

The development shallowly embeds the pure computational content of
`financial_analyzer.py` (taxonomy resolution, aggregation, ratio and
valuation calculators) and of the response-parsing stage of
`llm_analyzer.py` into Lean.  Python strings are modelled as `String` /
`List Char`, Python ints as `Int`, Python float arithmetic as exact
rational (`ℚ`) arithmetic, dict-shaped records as structures with
`Option` fields for possibly-absent keys.  Streamlit display calls in
the source only produce debug output and do not affect the returned
values; they are omitted from the embedding.
-/

namespace Capstone

/-! ### Python string helpers -/

/-- Whitespace characters removed by Python's `str.strip()` (ASCII subset). -/
def pyWs (c : Char) : Bool :=
  c = ' ' || c = '\t' || c = '\n' || c = '\r' || c = Char.ofNat 11 || c = Char.ofNat 12

/-- `str.strip()`: drop whitespace from both ends of a character list. -/
def stripChars (cs : List Char) : List Char :=
  ((cs.dropWhile pyWs).reverse.dropWhile pyWs).reverse

/-- Parse a nonempty run of decimal digits to a natural number (`none` otherwise). -/
def digitsVal (cs : List Char) : Option Nat :=
  if cs ≠ [] && cs.all Char.isDigit then
    some (cs.foldl (fun acc c => acc * 10 + (c.toNat - 48)) 0)
  else none

/-- Python `int(s)`: optional surrounding whitespace, optional sign, decimal
digits.  (Underscore digit separators accepted by CPython are not modelled;
no amount string in the repository uses them.) -/
def pyInt (cs : List Char) : Option Int :=
  match stripChars cs with
  | '-' :: ds => (digitsVal ds).map fun n => -(n : Int)
  | '+' :: ds => (digitsVal ds).map fun n => (n : Int)
  | ds => (digitsVal ds).map fun n => (n : Int)

/-- `s.replace(",", "")`: delete every comma. -/
def dropCommas (cs : List Char) : List Char := cs.filter (· ≠ ',')

/-! ### Account taxonomy (`financial_analyzer.py`, `accounts` table) -/

/-- The six canonical line items of the `accounts` dict, in the insertion
order of the Python dict (자산, 부채, 자본, 매출액, 영업이익, 당기순이익). -/
inductive CKey where
  | assets | liabilities | equity | revenue | operatingProfit | netIncome
deriving DecidableEq, Repr

/-- Alias lists of the `accounts` dict, verbatim from the source. -/
def aliases : CKey → List String
  | .assets =>
      ["ifrs-full_Assets", "ifrs_Assets", "Assets",
       "ifrs-full_TotalAssets", "ifrs_TotalAssets", "TotalAssets"]
  | .liabilities =>
      ["ifrs-full_Liabilities", "ifrs_Liabilities", "Liabilities",
       "ifrs-full_TotalLiabilities", "ifrs_TotalLiabilities", "TotalLiabilities"]
  | .equity =>
      ["ifrs-full_Equity", "ifrs_Equity", "Equity",
       "EquityAttributableToOwnersOfParent", "ifrs-full_EquityAttributableToOwnersOfParent",
       "ifrs-full_TotalEquity", "ifrs_TotalEquity", "TotalEquity"]
  | .revenue =>
      ["ifrs-full_Revenue", "ifrs_Revenue", "Revenue",
       "ifrs-full_OperatingRevenue", "ifrs_OperatingRevenue", "OperatingRevenue",
       "ifrs-full_GrossOperatingProfit", "ifrs_GrossOperatingProfit", "GrossOperatingProfit",
       "ifrs-full_Sales", "ifrs_Sales", "Sales"]
  | .operatingProfit =>
      ["ifrs-full_OperatingIncome", "ifrs_OperatingIncome", "OperatingIncome",
       "ifrs-full_ProfitLossFromOperatingActivities", "ifrs_ProfitLossFromOperatingActivities",
       "ProfitLossFromOperatingActivities"]
  | .netIncome =>
      ["ifrs-full_ProfitLoss", "ifrs_ProfitLoss", "ProfitLoss",
       "ifrs-full_ProfitLossAttributableToOwnersOfParent", "ifrs_ProfitLossAttributableToOwnersOfParent",
       "ProfitLossAttributableToOwnersOfParent", "ifrs-full_NetIncome", "ifrs_NetIncome", "NetIncome"]

/-- Whether a canonical key is a balance-sheet item (자산, 부채, 자본). -/
def isBSKey : CKey → Bool
  | .assets | .liabilities | .equity => true
  | .revenue | .operatingProfit | .netIncome => false

/-- The statement-division test of the source: balance-sheet keys require
`sj_div == 'BS'`, income-statement keys require `'CIS'` or `'IS'`. -/
def divOk (k : CKey) (sjDiv : String) : Bool :=
  if isBSKey k then sjDiv = "BS" else sjDiv = "CIS" || sjDiv = "IS"

/-- One raw statement record (one element of `year_data['list']`); only the
fields that influence the returned dataset are modelled (`account_nm` feeds
debug output only).  `none` models an absent dict key. -/
structure RawRecord where
  account_id : Option String
  sj_div : Option String
  thstrm_amount : Option String
deriving DecidableEq, Repr

/-- The per-year accumulator `year_result` of `process_financial_data`. -/
structure YearResult where
  assets : Int
  liabilities : Int
  equity : Int
  revenue : Int
  operating_profit : Int
  net_income : Int
deriving DecidableEq, Repr

/-- The all-zero initial `year_result`. -/
def zeroYR : YearResult := ⟨0, 0, 0, 0, 0, 0⟩

/-- Field lookup by canonical key. -/
def YearResult.get (s : YearResult) : CKey → Int
  | .assets => s.assets
  | .liabilities => s.liabilities
  | .equity => s.equity
  | .revenue => s.revenue
  | .operatingProfit => s.operating_profit
  | .netIncome => s.net_income

/-- Field update by canonical key. -/
def YearResult.set (s : YearResult) : CKey → Int → YearResult
  | .assets, v => { s with assets := v }
  | .liabilities, v => { s with liabilities := v }
  | .equity, v => { s with equity := v }
  | .revenue, v => { s with revenue := v }
  | .operatingProfit, v => { s with operating_profit := v }
  | .netIncome, v => { s with net_income := v }

/-- Whether a record matches a canonical key: `account_id` present and
truthy, listed among the key's aliases, and the record's `sj_div` (defaulted
to `""` when absent) passes the statement-division test for that key. -/
def matchesKey (k : CKey) (r : RawRecord) : Bool :=
  match r.account_id with
  | none => false
  | some id => id ≠ "" && id ∈ aliases k && divOk k (r.sj_div.getD "")

/-- The value a record contributes to a canonical key, when it matches and
its amount parses: `int(thstrm_amount.replace(',', '')) // 1000000`, with
Python's floor division (`Int.fdiv`).  The amount defaults to `"0"` when the
key is absent; a parse failure yields `none` (the `except` branch). -/
def matchValue (k : CKey) (r : RawRecord) : Option Int :=
  if matchesKey k r then
    (pyInt (dropCommas (r.thstrm_amount.getD "0").data)).map (Int.fdiv · 1000000)
  else none

/-- Processing of one record for one canonical key (body of the inner
`for key, id_list in accounts.items()` loop): on a match whose amount
parses, the key's slot is written only while it still holds `0`. -/
def applyRecordKey (r : RawRecord) (s : YearResult) (k : CKey) : YearResult :=
  match matchValue k r with
  | some v => if s.get k = 0 then s.set k v else s
  | none => s

/-- Processing of one record (body of the `for fin_item in fin_data` loop):
every canonical key is tried in the dict's insertion order. -/
def applyRecord (s : YearResult) (r : RawRecord) : YearResult :=
  [CKey.assets, .liabilities, .equity, .revenue, .operatingProfit, .netIncome].foldl
    (applyRecordKey r) s

/-- Resolution of one year's record list into the per-year accumulator. -/
def resolveYear (rs : List RawRecord) : YearResult :=
  rs.foldl applyRecord zeroYR

/-- First non-zero element of a list, or `0` when there is none. -/
def firstNonzero : List Int → Int
  | [] => 0
  | v :: vs => if v = 0 then firstNonzero vs else v

/-! ### Aggregation across years (`process_financial_data`) -/

/-- One year's payload dict: only the `'list'` key influences the returned
dataset (`'status'`/`'message'` feed debug output only). -/
structure YearPayload where
  lst : Option (List RawRecord)
deriving DecidableEq, Repr

/-- The canonical dataset returned by `process_financial_data`. -/
structure FinData where
  assets : List Int
  liabilities : List Int
  equity : List Int
  revenue : List Int
  operating_profit : List Int
  net_income : List Int
  years : List Int
deriving DecidableEq, Repr

/-- Per-year resolution with the degradation guard of the source:
`if year_data is None or 'list' not in year_data:` every key keeps 0. -/
def resolvePayload : Option YearPayload → YearResult
  | none => zeroYR
  | some p =>
    match p.lst with
    | none => zeroYR
    | some rs => resolveYear rs

/-- `FinancialAnalyzer.process_financial_data`: each year's payload is
resolved independently and the per-year values are appended in order. -/
def process_financial_data (payloads : List (Option YearPayload)) (years : List Int) :
    FinData :=
  { assets := payloads.map fun p => (resolvePayload p).assets
    liabilities := payloads.map fun p => (resolvePayload p).liabilities
    equity := payloads.map fun p => (resolvePayload p).equity
    revenue := payloads.map fun p => (resolvePayload p).revenue
    operating_profit := payloads.map fun p => (resolvePayload p).operating_profit
    net_income := payloads.map fun p => (resolvePayload p).net_income
    years := years }

/-! ### Number formatting

Python float arithmetic in the ratio and valuation calculators is modelled
by exact rational arithmetic; `format` rounding (`.2f`, `,.0f`) uses
round-half-to-even, matching CPython's formatting of exactly representable
values.  (`-0.0` formatting has no Lean counterpart; no claim depends on it.)
-/

/-- Round a rational to the nearest integer, ties to even. -/
def roundHalfEven (q : ℚ) : ℤ :=
  let f := q.floor
  let frac := q - f
  if frac < 1/2 then f
  else if 1/2 < frac then f + 1
  else if f % 2 = 0 then f else f + 1

/-- Two-digit zero-padded rendering of a value below 100. -/
def pad2 (m : Nat) : String :=
  if m < 10 then "0" ++ Nat.repr m else Nat.repr m

/-- Python `f"{q:.2f}"` over the rational model. -/
def format2 (q : ℚ) : String :=
  let n := roundHalfEven (q * 100)
  (if n < 0 then "-" else "") ++ Nat.repr (n.natAbs / 100) ++ "." ++ pad2 (n.natAbs % 100)

/-- Insert a comma after every third character of a reversed digit list. -/
def commaRev : List Char → List Char
  | a :: b :: c :: d :: rest => a :: b :: c :: ',' :: commaRev (d :: rest)
  | l => l

/-- Python `f"{q:,.0f}"` over the rational model: round to an integer,
ties to even, and group the digits in threes with commas. -/
def formatThousands (q : ℚ) : String :=
  let n := roundHalfEven q
  (if n < 0 then "-" else "") ++ ⟨(commaRev (Nat.repr n.natAbs).data.reverse).reverse⟩

/-! ### Ratio engine (`calculate_financial_ratios`) -/

/-- Revenue growth: a leading sentinel, then for `i` in `range(1, len)` the
prior-year-guarded percentage. -/
def revenue_growth_list (d : FinData) : List String :=
  "-" :: (List.range' 1 (d.revenue.length - 1)).map fun i =>
    if d.revenue.getD (i-1) 0 > 0 then
      format2 (((d.revenue.getD i 0 : ℚ) / (d.revenue.getD (i-1) 0 : ℚ) - 1) * 100) ++ "%"
    else "-"

/-- Operating margin per year, guarded by positive revenue. -/
def profit_margin_list (d : FinData) : List String :=
  (List.range d.revenue.length).map fun i =>
    if d.revenue.getD i 0 > 0 then
      format2 (((d.operating_profit.getD i 0 : ℚ) / (d.revenue.getD i 0 : ℚ)) * 100) ++ "%"
    else "-"

/-- Net margin per year, guarded by positive revenue. -/
def net_margin_list (d : FinData) : List String :=
  (List.range d.revenue.length).map fun i =>
    if d.revenue.getD i 0 > 0 then
      format2 (((d.net_income.getD i 0 : ℚ) / (d.revenue.getD i 0 : ℚ)) * 100) ++ "%"
    else "-"

/-- Return on equity per year, guarded by positive equity. -/
def roe_list (d : FinData) : List String :=
  (List.range d.equity.length).map fun i =>
    if d.equity.getD i 0 > 0 then
      format2 (((d.net_income.getD i 0 : ℚ) / (d.equity.getD i 0 : ℚ)) * 100) ++ "%"
    else "-"

/-- Debt ratio per year, guarded by positive assets. -/
def debt_ratio_list (d : FinData) : List String :=
  (List.range d.assets.length).map fun i =>
    if d.assets.getD i 0 > 0 then
      format2 (((d.liabilities.getD i 0 : ℚ) / (d.assets.getD i 0 : ℚ)) * 100) ++ "%"
    else "-"

/-- The dict returned by `calculate_financial_ratios` (keys 연도, 매출 성장률,
영업이익률, 순이익률, ROE, 부채비율, modelled as named fields). -/
structure RatioTable where
  year_labels : List String
  revenue_growth : List String
  profit_margin : List String
  net_margin : List String
  roe : List String
  debt_ratios : List String
deriving DecidableEq, Repr

/-- `FinancialAnalyzer.calculate_financial_ratios`.  All guards compare the
denominator with 0 strictly; any non-positive denominator produces the
sentinel `"-"`.  The embedding is a total function: no division is ever
performed outside a positive-denominator guard. -/
def calculate_financial_ratios (d : FinData) : RatioTable :=
  { year_labels := d.years.map fun y => toString y
    revenue_growth := revenue_growth_list d
    profit_margin := profit_margin_list d
    net_margin := net_margin_list d
    roe := roe_list d
    debt_ratios := debt_ratio_list d }

/-! ### Valuation engine (`calculate_valuation`) -/

/-- PER-based value: `net_income * 15` when positive net income, else 0. -/
def estimated_value_per (n : ℚ) : ℚ := if n > 0 then n * 15 else 0

/-- EBITDA proxy: `operating_profit * 1.2` (the float literal `1.2` is
modelled as the exact rational 6/5; on every integer operating profit the
float product rounds to the same sign, and `50 * 1.2 = 60.0` exactly). -/
def estimated_ebitda (p : ℚ) : ℚ := p * (6/5)

/-- EBITDA-multiple value: `estimated_ebitda * 8` when the proxy is
positive, else 0. -/
def estimated_value_ebitda (p : ℚ) : ℚ :=
  if estimated_ebitda p > 0 then estimated_ebitda p * 8 else 0

/-- `(min(values), max(values))` over the strictly positive entries, or
`(0, 0)` when none is positive — the `values = [v for v in ... if v > 0]`
block of the source. -/
def posRange (vs : List ℚ) : ℚ × ℚ :=
  match vs.filter (fun v => 0 < v) with
  | [] => (0, 0)
  | x :: xs => (xs.foldl min x, xs.foldl max x)

/-- The structure returned by `calculate_valuation`: the list of
`(평가 방법, 추정 가치 (백만원))` rows and the valuation range. -/
structure ValuationOutput where
  valuations : List (String × String)
  range : ℚ × ℚ
deriving DecidableEq, Repr

/-- The `데이터 부족` ("insufficient data") outcome. -/
def insufficientResult : ValuationOutput :=
  { valuations := [("데이터 부족", "N/A")], range := (0, 0) }

/-- The reference-year scan `for i in range(len(years)-1, -1, -1)`:
`findRefAux ni op m` inspects indices `m-1, m-2, …, 0`. -/
def findRefAux (ni op : List Int) : Nat → Option Nat
  | 0 => none
  | m + 1 =>
    if ni.getD m 0 > 0 ∨ op.getD m 0 > 0 then some m else findRefAux ni op m

/-- Index of the most recent year with positive net income or operating
profit, if any. -/
def selectRefYear (d : FinData) : Option Nat :=
  findRefAux d.net_income d.operating_profit d.years.length

/-- `FinancialAnalyzer.calculate_valuation`.  The leading guard models
`not any(net_income) and not any(operating_profit)` (Python truthiness of an
int is non-zeroness); the scan models the `for … else` search for the most
recent year with positive net income or operating profit. -/
def calculate_valuation (d : FinData) : ValuationOutput :=
  if d.net_income.all (fun x => x = 0) && d.operating_profit.all (fun x => x = 0) then
    insufficientResult
  else
    match selectRefYear d with
    | none => insufficientResult
    | some i =>
      let n : ℚ := d.net_income.getD i 0
      let p : ℚ := d.operating_profit.getD i 0
      let e : ℚ := d.equity.getD i 0
      let vPer := estimated_value_per n
      let vEbitda := estimated_value_ebitda p
      let vNav := e
      { valuations :=
          [("PER 기준 가치", formatThousands vPer),
           ("EBITDA Multiple 기준 가치", formatThousands vEbitda),
           ("순자산 가치", formatThousands vNav)]
        range := posRange [vPer, vEbitda, vNav] }

/-! ### JSON values and `json.loads`

A model of the Python `json` decoder as used by `llm_analyzer.py`: a JSON
value type and a strict recursive-descent parser.  The parser accepts the
standard JSON grammar (the `NaN`/`Infinity` extensions and surrogate-pair
recombination of CPython are not modelled; object member lists keep every
pair in order where a Python dict would keep the last duplicate — no
response text in the claims contains duplicates).
-/

/-- The opening curly brace character. -/
def lbrace : Char := Char.ofNat 123

/-- The closing curly brace character. -/
def rbrace : Char := Char.ofNat 125

/-- Decoded JSON values. -/
inductive Json where
  | null
  | bool (b : Bool)
  | num (v : ℚ)
  | str (s : String)
  | arr (elems : List Json)
  | obj (members : List (String × Json))

/-- JSON insignificant whitespace. -/
def jsonWsChar (c : Char) : Bool := c = ' ' || c = '\t' || c = '\n' || c = '\r'

/-- Skip JSON whitespace. -/
def skipWs (cs : List Char) : List Char := cs.dropWhile jsonWsChar

/-- Hexadecimal digit value. -/
def hexVal (c : Char) : Option Nat :=
  if c.isDigit then some (c.toNat - 48)
  else if 'a' ≤ c ∧ c ≤ 'f' then some (c.toNat - 87)
  else if 'A' ≤ c ∧ c ≤ 'F' then some (c.toNat - 55)
  else none

/-- Parse the body of a JSON string (after the opening quote); returns the
decoded characters and the remaining input. -/
def parseStringChars : List Char → Option (List Char × List Char)
  | [] => none
  | '"' :: rest => some ([], rest)
  | '\\' :: '"' :: rest => (parseStringChars rest).map fun (s, r) => ('"' :: s, r)
  | '\\' :: '\\' :: rest => (parseStringChars rest).map fun (s, r) => ('\\' :: s, r)
  | '\\' :: '/' :: rest => (parseStringChars rest).map fun (s, r) => ('/' :: s, r)
  | '\\' :: 'b' :: rest => (parseStringChars rest).map fun (s, r) => (Char.ofNat 8 :: s, r)
  | '\\' :: 'f' :: rest => (parseStringChars rest).map fun (s, r) => (Char.ofNat 12 :: s, r)
  | '\\' :: 'n' :: rest => (parseStringChars rest).map fun (s, r) => ('\n' :: s, r)
  | '\\' :: 'r' :: rest => (parseStringChars rest).map fun (s, r) => ('\r' :: s, r)
  | '\\' :: 't' :: rest => (parseStringChars rest).map fun (s, r) => ('\t' :: s, r)
  | '\\' :: 'u' :: a :: b :: c :: d :: rest =>
    match hexVal a, hexVal b, hexVal c, hexVal d with
    | some ha, some hb, some hc, some hd =>
      (parseStringChars rest).map fun (s, r) =>
        (Char.ofNat (((ha * 16 + hb) * 16 + hc) * 16 + hd) :: s, r)
    | _, _, _, _ => none
  | '\\' :: _ => none
  | c :: rest => (parseStringChars rest).map fun (s, r) => (c :: s, r)

/-- JSON integer part: `0`, or a nonzero digit followed by digits. -/
def parseIntPart : List Char → Option (List Char × List Char)
  | [] => none
  | '0' :: rest => some (['0'], rest)
  | c :: rest =>
    if c.isDigit then
      some (c :: rest.takeWhile Char.isDigit, rest.dropWhile Char.isDigit)
    else none

/-- A nonempty digit run and its value, with the rest of the input. -/
def digitsSpan (cs : List Char) : Option (Nat × List Char) :=
  match digitsVal (cs.takeWhile Char.isDigit) with
  | some n => some (n, cs.dropWhile Char.isDigit)
  | none => none

/-- Optional JSON exponent part (defaults to exponent 0 when absent). -/
def parseExpPart (cs : List Char) : Option (Int × List Char) :=
  match cs with
  | c :: r =>
    if c = 'e' ∨ c = 'E' then
      match r with
      | '-' :: r2 => (digitsSpan r2).map fun (n, rest) => (-(n : Int), rest)
      | '+' :: r2 => (digitsSpan r2).map fun (n, rest) => ((n : Int), rest)
      | r2 => (digitsSpan r2).map fun (n, rest) => ((n : Int), rest)
    else some (0, cs)
  | [] => some (0, cs)

/-- Integer power of ten as a rational. -/
def powTen : Int → ℚ
  | .ofNat n => (10 : ℚ) ^ n
  | .negSucc n => 1 / (10 : ℚ) ^ (n + 1)

/-- Parse a JSON number into an exact rational. -/
def parseNumber (cs : List Char) : Option (Json × List Char) :=
  let signed : Bool × List Char :=
    match cs with
    | '-' :: r => (true, r)
    | _ => (false, cs)
  match parseIntPart signed.2 with
  | none => none
  | some (ip, cs2) =>
    match digitsVal ip with
    | none => none
    | some intVal =>
      let fracPart : Option (List Char) × List Char :=
        match cs2 with
        | '.' :: r => (some (r.takeWhile Char.isDigit), r.dropWhile Char.isDigit)
        | _ => (none, cs2)
      match fracPart.1 with
      | some [] => none
      | _ =>
        let fracDigits := (fracPart.1).getD []
        match parseExpPart fracPart.2 with
        | none => none
        | some (e, rest) =>
          let fracVal := (digitsVal fracDigits).getD 0
          let mag : ℚ :=
            ((intVal : ℚ) + (fracVal : ℚ) / (10 : ℚ) ^ fracDigits.length) * powTen e
          some (.num (if signed.1 then -mag else mag), rest)

mutual

/-- Parse one JSON value (fuel-indexed recursive descent). -/
def parseValue : Nat → List Char → Option (Json × List Char)
  | 0, _ => none
  | fuel + 1, cs =>
    match skipWs cs with
    | [] => none
    | c :: rest =>
      if c = lbrace then
        match skipWs rest with
        | c2 :: r2 =>
          if c2 = rbrace then some (.obj [], r2)
          else (parseMembers fuel (c2 :: r2)).map fun (ms, r) => (.obj ms, r)
        | [] => none
      else if c = '[' then
        match skipWs rest with
        | ']' :: r2 => some (.arr [], r2)
        | r2 => (parseElements fuel r2).map fun (vs, r) => (.arr vs, r)
      else if c = '"' then
        (parseStringChars rest).map fun (s, r) => (.str ⟨s⟩, r)
      else
        match c :: rest with
        | 'n' :: 'u' :: 'l' :: 'l' :: r => some (.null, r)
        | 't' :: 'r' :: 'u' :: 'e' :: r => some (.bool true, r)
        | 'f' :: 'a' :: 'l' :: 's' :: 'e' :: r => some (.bool false, r)
        | l => parseNumber l

/-- Parse a nonempty comma-separated object member list up to the closing
brace. -/
def parseMembers : Nat → List Char → Option (List (String × Json) × List Char)
  | 0, _ => none
  | fuel + 1, cs =>
    match skipWs cs with
    | '"' :: rest =>
      match parseStringChars rest with
      | none => none
      | some (key, r1) =>
        match skipWs r1 with
        | ':' :: r2 =>
          match parseValue fuel r2 with
          | none => none
          | some (v, r3) =>
            match skipWs r3 with
            | c :: r4 =>
              if c = ',' then
                (parseMembers fuel r4).map fun (ms, r5) => ((⟨key⟩, v) :: ms, r5)
              else if c = rbrace then some ([(⟨key⟩, v)], r4)
              else none
            | [] => none
        | _ => none
    | _ => none

/-- Parse a nonempty comma-separated array element list up to the closing
bracket. -/
def parseElements : Nat → List Char → Option (List Json × List Char)
  | 0, _ => none
  | fuel + 1, cs =>
    match parseValue fuel cs with
    | none => none
    | some (v, r) =>
      match skipWs r with
      | ',' :: r2 => (parseElements fuel r2).map fun (vs, r3) => (v :: vs, r3)
      | ']' :: r2 => some ([v], r2)
      | _ => none

end

/-- `json.loads` over a character list: one JSON value surrounded only by
whitespace. -/
def jsonParseChars (cs : List Char) : Option Json :=
  match parseValue (2 * cs.length + 2) cs with
  | some (v, rest) => if (skipWs rest).isEmpty then some v else none
  | none => none

/-- `json.loads` on a string. -/
def jsonParse (s : String) : Option Json := jsonParseChars s.data

/-! ### Response parsing stage of `LLMAnalyzer.analyze_company_value`

Models lines 196–222 of `llm_analyzer.py`: the backend response text is
stripped, `re.search(r'({[\s\S]*})', content)` looks for a brace block, the
block (or, when no block exists, the whole stripped text) is fed to
`json.loads`, and a `JSONDecodeError` produces the error dict that carries
`content` as `raw_content`.  The surrounding network I/O (API-key check and
`openai` call) is outside this embedding.
-/

/-- Index of the first occurrence of a character, if any. -/
def idxOfFirst (c : Char) : List Char → Option Nat
  | [] => none
  | a :: as => if a = c then some 0 else (idxOfFirst c as).map (· + 1)

/-- Index of the last occurrence of a character, if any. -/
def idxOfLast (c : Char) : List Char → Option Nat
  | [] => none
  | a :: as =>
    match idxOfLast c as with
    | some k => some (k + 1)
    | none => if a = c then some 0 else none

/-- The leftmost-longest match of the pattern `({[\s\S]*})`: the segment
from the first opening brace to the last closing brace, provided the latter
comes after the former (greedy `[\s\S]*`, so this is not the first balanced
block). -/
def extractBraceBlock (cs : List Char) : Option (List Char) :=
  match idxOfFirst lbrace cs, idxOfLast rbrace cs with
  | some i, some j => if i < j then some ((cs.drop i).take (j - i + 1)) else none
  | _, _ => none

/-- Outcome of the response-parsing stage: the `status: success` dict with
its `valuation_data`, or the `status: error` dict whose `raw_content` field
carries the text that decoding was attempted on (its `message` field is
diagnostic prose and is not modelled). -/
inductive AnalyzeOutcome where
  | success (valuation_data : Json)
  | parseError (raw_content : String)

/-- The decode attempt inside the `try`: `json.loads` on the extracted
brace block when the regex matches, otherwise on the whole content. -/
def decodeStage (cs : List Char) : Option Json :=
  match extractBraceBlock cs with
  | some block => jsonParseChars block
  | none => jsonParseChars cs

/-- The response-parsing stage of `analyze_company_value`. -/
def analyze_company_value_parse (raw : String) : AnalyzeOutcome :=
  match decodeStage (stripChars raw.data) with
  | some v => .success v
  | none => .parseError ⟨stripChars raw.data⟩

/- The Batteries rational operations are `@[irreducible]`; the concrete
scenario computations below are settled by `decide`, which needs them to
reduce. -/
attribute [local semireducible] Rat.mul Rat.add Rat.sub Rat.inv

/-! ### Resolver lemmas -/

theorem YearResult.get_zero (k : CKey) : zeroYR.get k = 0 := by
  cases k <;> rfl

theorem YearResult.get_set_self (s : YearResult) (k : CKey) (v : Int) :
    (s.set k v).get k = v := by
  cases k <;> rfl

theorem YearResult.get_set_ne (s : YearResult) (v : Int) {k k' : CKey} (h : k ≠ k') :
    (s.set k v).get k' = s.get k' := by
  cases k <;> cases k' <;> simp_all [YearResult.set, YearResult.get]

theorem applyRecordKey_get_ne (r : RawRecord) (s : YearResult) {k k' : CKey} (h : k ≠ k') :
    (applyRecordKey r s k).get k' = s.get k' := by
  unfold applyRecordKey
  cases matchValue k r with
  | none => rfl
  | some v =>
    by_cases h0 : s.get k = 0 <;> simp [h0, YearResult.get_set_ne _ _ h]

theorem applyRecordKey_get_self (r : RawRecord) (s : YearResult) (k : CKey) :
    (applyRecordKey r s k).get k =
      if s.get k = 0 then (matchValue k r).getD 0 else s.get k := by
  unfold applyRecordKey
  cases hm : matchValue k r with
  | none =>
    by_cases h0 : s.get k = 0 <;> simp [h0]
  | some v =>
    by_cases h0 : s.get k = 0 <;> simp [h0, YearResult.get_set_self]

theorem applyRecord_get (s : YearResult) (r : RawRecord) (k : CKey) :
    (applyRecord s r).get k =
      if s.get k = 0 then (matchValue k r).getD 0 else s.get k := by
  cases k <;>
    simp [applyRecord, applyRecordKey_get_ne, applyRecordKey_get_self]

/-- Characterization of the fold over one year's records: whatever state the
accumulator is in, a slot that already holds a non-zero value is left alone,
and a zero slot receives the first non-zero contribution of the remaining
records. -/
theorem foldl_applyRecord_get (rs : List RawRecord) (s : YearResult) (k : CKey) :
    (rs.foldl applyRecord s).get k =
      if s.get k = 0 then firstNonzero (rs.filterMap (matchValue k)) else s.get k := by
  induction rs generalizing s with
  | nil => by_cases h0 : s.get k = 0 <;> simp [h0, firstNonzero]
  | cons r rs ih =>
    simp only [List.foldl_cons, ih, applyRecord_get, List.filterMap_cons]
    cases hm : matchValue k r <;> by_cases h0 : s.get k = 0 <;>
      simp [hm, h0, firstNonzero]

/-! ### Aggregation lemmas -/

theorem resolvePayload_none_lst (p : YearPayload) (h : p.lst = none) :
    resolvePayload (some p) = zeroYR := by
  simp [resolvePayload, h]

theorem resolvePayload_empty (p : YearPayload) (h : p.lst = some []) :
    resolvePayload (some p) = zeroYR := by
  simp [resolvePayload, h, resolveYear]

theorem process_get_year (payloads : List (Option YearPayload)) (years : List Int)
    (i : Nat) (hi : i < payloads.length) (k : CKey) (dflt : Int) :
    (match k with
      | .assets => (process_financial_data payloads years).assets
      | .liabilities => (process_financial_data payloads years).liabilities
      | .equity => (process_financial_data payloads years).equity
      | .revenue => (process_financial_data payloads years).revenue
      | .operatingProfit => (process_financial_data payloads years).operating_profit
      | .netIncome => (process_financial_data payloads years).net_income).getD i dflt
      = (resolvePayload (payloads.getD i none)).get k := by
  have hsome : payloads[i]? = some payloads[i] := List.getElem?_eq_getElem hi
  cases k <;>
    simp [process_financial_data, YearResult.get, List.getD_eq_getElem?_getD,
      List.getElem?_map, hsome]

/-! ### Claims C1, C5, C6 -/

/-- C1 (amended): the dataset value for a canonical key and year is the value
contributed by the first matching record whose amount parses and is non-zero
after conversion to millions (matching records that fail to parse, or whose
floor-divided value is zero, leave the slot open); and once a key's slot
holds a non-zero value, processing any further records leaves it unchanged.
The literal claim — that the value reflects the first matching record
outright — fails; see the counterexample. -/
theorem c1_first_nonzero_match (rs : List RawRecord) (k : CKey) (s : YearResult)
    (h : s.get k ≠ 0) :
    (resolveYear rs).get k = firstNonzero (rs.filterMap (matchValue k)) ∧
    (rs.foldl applyRecord s).get k = s.get k := by
  constructor
  · rw [resolveYear, foldl_applyRecord_get]
    simp [YearResult.get_zero]
  · rw [foldl_applyRecord_get]
    simp [h]

/-- A balance-sheet assets record whose amount (500,000) floors to 0 millions. -/
def c1rec1 : RawRecord := ⟨some "ifrs-full_Assets", some "BS", some "500000"⟩

/-- A second assets record worth 2 millions. -/
def c1rec2 : RawRecord := ⟨some "Assets", some "BS", some "2,000,000"⟩

/-- C1 counterexample: both records match the `assets` key with the expected
BS division, yet the resolved value (2) is that of the second record, not of
the first (whose converted value is 0) — the dataset does not "reflect only
the first such record". -/
theorem c1_counterexample :
    matchesKey .assets c1rec1 = true ∧ matchesKey .assets c1rec2 = true ∧
    matchValue .assets c1rec1 = some 0 ∧ matchValue .assets c1rec2 = some 2 ∧
    (resolveYear [c1rec1, c1rec2]).get .assets = 2 := by
  refine ⟨rfl, rfl, rfl, rfl, rfl⟩

/-- C1 witness: instantiating the amended claim at a slot already holding 5
and at the single-record list `[c1rec2]`. -/
theorem c1_witness :
    ((⟨5, 0, 0, 0, 0, 0⟩ : YearResult).get .assets ≠ 0) ∧
    ((resolveYear [c1rec2]).get .assets =
        firstNonzero ([c1rec2].filterMap (matchValue .assets)) ∧
      ([c1rec2].foldl applyRecord ⟨5, 0, 0, 0, 0, 0⟩).get .assets =
        (⟨5, 0, 0, 0, 0, 0⟩ : YearResult).get .assets) :=
  ⟨by decide, c1_first_nonzero_match [c1rec2] .assets ⟨5, 0, 0, 0, 0, 0⟩ (by decide)⟩

/-- C5 (confirmed): a year whose payload is `None`, lacks the `'list'` key,
or carries an empty record list contributes 0 to every canonical value list
at that year's index, and the remaining years are still aggregated (every
value list keeps one entry per payload). -/
theorem c5_missing_year_zero (payloads : List (Option YearPayload)) (years : List Int)
    (i : Nat) (hi : i < payloads.length)
    (hbad : payloads.getD i none = none ∨ payloads.getD i none = some ⟨none⟩ ∨
      payloads.getD i none = some ⟨some []⟩) :
    (process_financial_data payloads years).assets.getD i 1 = 0 ∧
    (process_financial_data payloads years).liabilities.getD i 1 = 0 ∧
    (process_financial_data payloads years).equity.getD i 1 = 0 ∧
    (process_financial_data payloads years).revenue.getD i 1 = 0 ∧
    (process_financial_data payloads years).operating_profit.getD i 1 = 0 ∧
    (process_financial_data payloads years).net_income.getD i 1 = 0 ∧
    (process_financial_data payloads years).assets.length = payloads.length := by
  have hzero : resolvePayload (payloads.getD i none) = zeroYR := by
    rcases hbad with h | h | h <;> rw [h]
    · rfl
    · rfl
    · simp [resolvePayload, resolveYear]
  have h1 := process_get_year payloads years i hi .assets 1
  have h2 := process_get_year payloads years i hi .liabilities 1
  have h3 := process_get_year payloads years i hi .equity 1
  have h4 := process_get_year payloads years i hi .revenue 1
  have h5 := process_get_year payloads years i hi .operatingProfit 1
  have h6 := process_get_year payloads years i hi .netIncome 1
  rw [hzero] at h1 h2 h3 h4 h5 h6
  simp only [YearResult.get_zero] at h1 h2 h3 h4 h5 h6
  exact ⟨h1, h2, h3, h4, h5, h6, by simp [process_financial_data]⟩

/-- C5 witness: a single absent payload. -/
theorem c5_witness :
    (process_financial_data [none] [2020]).assets.getD 0 1 = 0 ∧
    (process_financial_data [none] [2020]).liabilities.getD 0 1 = 0 ∧
    (process_financial_data [none] [2020]).equity.getD 0 1 = 0 ∧
    (process_financial_data [none] [2020]).revenue.getD 0 1 = 0 ∧
    (process_financial_data [none] [2020]).operating_profit.getD 0 1 = 0 ∧
    (process_financial_data [none] [2020]).net_income.getD 0 1 = 0 ∧
    (process_financial_data [none] [2020]).assets.length = [(none : Option YearPayload)].length :=
  c5_missing_year_zero [none] [2020] 0 (by decide) (Or.inl rfl)

/-- C6 (confirmed): for payload and year lists of equal length, every
canonical value list of the returned dataset has length `len(years)` and the
`years` field is the given year list, whatever the payloads contain. -/
theorem c6_shape (payloads : List (Option YearPayload)) (years : List Int)
    (h : payloads.length = years.length) :
    (process_financial_data payloads years).assets.length = years.length ∧
    (process_financial_data payloads years).liabilities.length = years.length ∧
    (process_financial_data payloads years).equity.length = years.length ∧
    (process_financial_data payloads years).revenue.length = years.length ∧
    (process_financial_data payloads years).operating_profit.length = years.length ∧
    (process_financial_data payloads years).net_income.length = years.length ∧
    (process_financial_data payloads years).years = years := by
  simp [process_financial_data, h]

/-- C6 witness: one malformed payload alongside one well-formed year. -/
theorem c6_witness :
    (process_financial_data [some ⟨none⟩, none] [2020, 2021]).assets.length = [2020, 2021].length ∧
    (process_financial_data [some ⟨none⟩, none] [2020, 2021]).liabilities.length = [2020, 2021].length ∧
    (process_financial_data [some ⟨none⟩, none] [2020, 2021]).equity.length = [2020, 2021].length ∧
    (process_financial_data [some ⟨none⟩, none] [2020, 2021]).revenue.length = [2020, 2021].length ∧
    (process_financial_data [some ⟨none⟩, none] [2020, 2021]).operating_profit.length = [2020, 2021].length ∧
    (process_financial_data [some ⟨none⟩, none] [2020, 2021]).net_income.length = [2020, 2021].length ∧
    (process_financial_data [some ⟨none⟩, none] [2020, 2021]).years = [2020, 2021] :=
  c6_shape [some ⟨none⟩, none] [2020, 2021] (by decide)

/-! ### Valuation lemmas -/

theorem getD_nonpos {l : List Int} (h : ∀ x ∈ l, x ≤ 0) (m : Nat) : l.getD m 0 ≤ 0 := by
  rw [List.getD_eq_getElem?_getD]
  cases hm : l[m]? with
  | none => simp
  | some x =>
    have hx : x ∈ l := by
      have := List.getElem?_eq_some.1 hm
      obtain ⟨hlt, he⟩ := this
      exact he ▸ List.getElem_mem hlt
    simpa using h x hx

theorem findRefAux_none {ni op : List Int} (hni : ∀ x ∈ ni, x ≤ 0)
    (hop : ∀ x ∈ op, x ≤ 0) (m : Nat) : findRefAux ni op m = none := by
  induction m with
  | zero => rfl
  | succ m ih =>
    have h1 : ¬ (ni.getD m 0 > 0 ∨ op.getD m 0 > 0) := by
      push_neg
      exact ⟨getD_nonpos hni m, getD_nonpos hop m⟩
    rw [findRefAux, if_neg h1]
    exact ih

theorem findRefAux_some {ni op : List Int} {m i : Nat}
    (h : findRefAux ni op m = some i) :
    ni.getD i 0 > 0 ∨ op.getD i 0 > 0 := by
  induction m with
  | zero => exact absurd h (by simp [findRefAux])
  | succ m ih =>
    by_cases hc : ni.getD m 0 > 0 ∨ op.getD m 0 > 0
    · rw [findRefAux, if_pos hc] at h
      cases h
      exact hc
    · rw [findRefAux, if_neg hc] at h
      exact ih h

theorem foldl_min_le (l : List ℚ) (x : ℚ) : l.foldl min x ≤ x := by
  induction l generalizing x with
  | nil => exact le_refl x
  | cons a l ih =>
    calc (a :: l).foldl min x = l.foldl min (min x a) := rfl
    _ ≤ min x a := ih _
    _ ≤ x := min_le_left _ _

theorem le_foldl_max (l : List ℚ) (x : ℚ) : x ≤ l.foldl max x := by
  induction l generalizing x with
  | nil => exact le_refl x
  | cons a l ih =>
    calc x ≤ max x a := le_max_left _ _
    _ ≤ l.foldl max (max x a) := ih _
    _ = (a :: l).foldl max x := rfl

theorem foldl_min_pos (l : List ℚ) (x : ℚ) (hx : 0 < x) (hl : ∀ y ∈ l, 0 < y) :
    0 < l.foldl min x := by
  induction l generalizing x with
  | nil => exact hx
  | cons a l ih =>
    have ha : 0 < a := hl a (List.mem_cons_self a l)
    exact ih (min x a) (lt_min hx ha) fun y hy => hl y (List.mem_cons_of_mem a hy)

/-- When some entry is strictly positive, the valuation range has a strictly
positive lower end that does not exceed the upper end. -/
theorem posRange_pos (vs : List ℚ) (h : ∃ v ∈ vs, 0 < v) :
    0 < (posRange vs).1 ∧ (posRange vs).1 ≤ (posRange vs).2 := by
  obtain ⟨v, hv, hvpos⟩ := h
  have hvf : v ∈ vs.filter (fun v => 0 < v) :=
    List.mem_filter.2 ⟨hv, by simpa using hvpos⟩
  unfold posRange
  cases hf : vs.filter (fun v => 0 < v) with
  | nil => rw [hf] at hvf; cases hvf
  | cons x xs =>
    have hmem : ∀ y ∈ x :: xs, 0 < y := by
      intro y hy
      have : y ∈ vs.filter (fun v => 0 < v) := hf ▸ hy
      simpa using (List.mem_filter.1 this).2
    refine ⟨foldl_min_pos xs x (hmem x (List.mem_cons_self x xs))
      fun y hy => hmem y (List.mem_cons_of_mem x hy), ?_⟩
    calc xs.foldl min x ≤ x := foldl_min_le xs x
    _ ≤ xs.foldl max x := le_foldl_max xs x

/-- Unfolding of `calculate_valuation` once a reference year is selected. -/
theorem calculate_valuation_of_ref (d : FinData) (i : Nat)
    (h : selectRefYear d = some i) :
    calculate_valuation d =
      { valuations :=
          [("PER 기준 가치",
              formatThousands (estimated_value_per ((d.net_income.getD i 0 : Int) : ℚ))),
           ("EBITDA Multiple 기준 가치",
              formatThousands (estimated_value_ebitda ((d.operating_profit.getD i 0 : Int) : ℚ))),
           ("순자산 가치", formatThousands ((d.equity.getD i 0 : Int) : ℚ))]
        range := posRange [estimated_value_per ((d.net_income.getD i 0 : Int) : ℚ),
          estimated_value_ebitda ((d.operating_profit.getD i 0 : Int) : ℚ),
          ((d.equity.getD i 0 : Int) : ℚ)] } := by
  have hguard : ¬ (d.net_income.all (fun x => x = 0) &&
      d.operating_profit.all (fun x => x = 0)) = true := by
    intro hg
    have hni : ∀ x ∈ d.net_income, x ≤ 0 := by
      intro x hx
      have := (List.all_eq_true.1 (Bool.and_elim_left hg)) x hx
      simp only [decide_eq_true_eq] at this
      omega
    have hop : ∀ x ∈ d.operating_profit, x ≤ 0 := by
      intro x hx
      have := (List.all_eq_true.1 (Bool.and_elim_right hg)) x hx
      simp only [decide_eq_true_eq] at this
      omega
    rw [selectRefYear, findRefAux_none hni hop] at h
    cases h
  rw [calculate_valuation, if_neg hguard, h]

/-! ### Claims C3, C4, C10 -/

/-- C3 (confirmed): on a dataset whose net income and operating profit are
non-positive at every index (the all-zero case included), `calculate_valuation`
returns — as an ordinary value, the embedding being total — exactly one
method row, labelled `데이터 부족` ("insufficient data") with value `"N/A"`,
and the range `(0, 0)`. -/
theorem c3_insufficient_data (d : FinData) (hni : ∀ x ∈ d.net_income, x ≤ 0)
    (hop : ∀ x ∈ d.operating_profit, x ≤ 0) :
    calculate_valuation d =
      { valuations := [("데이터 부족", "N/A")], range := (0, 0) } := by
  have hsel : selectRefYear d = none := by
    rw [selectRefYear]
    exact findRefAux_none hni hop d.years.length
  unfold calculate_valuation
  by_cases hg : (d.net_income.all (fun x => x = 0) &&
      d.operating_profit.all (fun x => x = 0)) = true
  · rw [if_pos hg]
    rfl
  · rw [if_neg hg, hsel]
    rfl

/-- An all-zero single-year dataset. -/
def c3zero : FinData := ⟨[0], [0], [0], [0], [0], [0], [2023]⟩

/-- C3 witness: the all-zero dataset. -/
theorem c3_witness :
    calculate_valuation c3zero =
      { valuations := [("데이터 부족", "N/A")], range := (0, 0) } :=
  c3_insufficient_data c3zero (by decide) (by decide)

/-- The reference-year scenario dataset: net income 100, operating profit 50,
equity 500. -/
def c4scen : FinData := ⟨[], [], [500], [], [50], [100], [2023]⟩

/-- C4 (confirmed): with a selected reference year carrying net income `n`,
operating profit `p` and equity `e`, the method rows are the PER value
(`n * 15` when `n > 0`, else 0), the EBITDA value (`(p * 1.2) * 8` when the
scaled profit is positive, else 0) and the net-asset value `e`, the range is
the min/max over the strictly positive ones, and the scenario
`n=100, p=50, e=500` yields 1,500 / 480 / 500 with range (480, 1500). -/
theorem c4_valuation_formulas (d : FinData) (i : Nat)
    (h : selectRefYear d = some i) :
    calculate_valuation d =
      { valuations :=
          [("PER 기준 가치",
              formatThousands (estimated_value_per ((d.net_income.getD i 0 : Int) : ℚ))),
           ("EBITDA Multiple 기준 가치",
              formatThousands (estimated_value_ebitda ((d.operating_profit.getD i 0 : Int) : ℚ))),
           ("순자산 가치", formatThousands ((d.equity.getD i 0 : Int) : ℚ))]
        range := posRange [estimated_value_per ((d.net_income.getD i 0 : Int) : ℚ),
          estimated_value_ebitda ((d.operating_profit.getD i 0 : Int) : ℚ),
          ((d.equity.getD i 0 : Int) : ℚ)] } ∧
    (∀ q : ℚ, estimated_value_per q = if 0 < q then q * 15 else 0) ∧
    (∀ q : ℚ, estimated_value_ebitda q = if 0 < q * (6/5) then (q * (6/5)) * 8 else 0) ∧
    calculate_valuation c4scen =
      { valuations :=
          [("PER 기준 가치", "1,500"), ("EBITDA Multiple 기준 가치", "480"),
           ("순자산 가치", "500")]
        range := (480, 1500) } := by
  refine ⟨calculate_valuation_of_ref d i h, fun q => rfl, fun q => rfl, ?_⟩
  decide

/-- C4 witness: instantiation at the scenario dataset (reference year index 0). -/
theorem c4_witness :
    calculate_valuation c4scen =
      { valuations :=
          [("PER 기준 가치", "1,500"), ("EBITDA Multiple 기준 가치", "480"),
           ("순자산 가치", "500")]
        range := (480, 1500) } :=
  (c4_valuation_formulas c4scen 0 rfl).2.2.2

/-- C10 (confirmed): whenever a reference year is selected, the three-method
list is returned and the range satisfies `0 < min ≤ max`; the `(0, 0)`
fallback alongside three methods is unreachable, because the selection
condition forces the PER or EBITDA value to be strictly positive. -/
theorem c10_range_positive (d : FinData) (i : Nat)
    (h : selectRefYear d = some i) :
    (calculate_valuation d).valuations.length = 3 ∧
    0 < (calculate_valuation d).range.1 ∧
    (calculate_valuation d).range.1 ≤ (calculate_valuation d).range.2 := by
  have h' : findRefAux d.net_income d.operating_profit d.years.length = some i := h
  have hcond := findRefAux_some h'
  set n : ℚ := ((d.net_income.getD i 0 : Int) : ℚ) with hn
  set p : ℚ := ((d.operating_profit.getD i 0 : Int) : ℚ) with hp
  have hpos : ∃ v ∈ [estimated_value_per n, estimated_value_ebitda p,
      ((d.equity.getD i 0 : Int) : ℚ)], 0 < v := by
    rcases hcond with hcn | hcp
    · refine ⟨estimated_value_per n, by simp, ?_⟩
      have h0 : (0 : ℚ) < n := by rw [hn]; exact_mod_cast hcn
      rw [estimated_value_per, if_pos h0]
      positivity
    · refine ⟨estimated_value_ebitda p, by simp, ?_⟩
      have h0 : (0 : ℚ) < p := by rw [hp]; exact_mod_cast hcp
      have h1 : (0 : ℚ) < estimated_ebitda p := by
        rw [estimated_ebitda]
        positivity
      rw [estimated_value_ebitda, if_pos h1]
      positivity
  rw [calculate_valuation_of_ref d i h]
  exact ⟨rfl, (posRange_pos _ hpos).1, (posRange_pos _ hpos).2⟩

/-- A dataset whose only positive figure is the operating profit. -/
def c10scen : FinData := ⟨[], [], [0], [], [10], [0], [2022]⟩

/-- C10 witness: instantiation at a dataset selected through the
operating-profit disjunct. -/
theorem c10_witness :
    (calculate_valuation c10scen).valuations.length = 3 ∧
    0 < (calculate_valuation c10scen).range.1 ∧
    (calculate_valuation c10scen).range.1 ≤ (calculate_valuation c10scen).range.2 :=
  c10_range_positive c10scen 0 rfl

/-! ### Ratio lemmas and claims C7, C8 -/

theorem range_map_getD (f : Nat → String) (n i : Nat) (hi : i < n) (dflt : String) :
    ((List.range n).map f).getD i dflt = f i := by
  rw [List.getD_eq_getElem _ _ (by simpa using hi)]
  simp

theorem range1_map_getD (f : Nat → String) (m j : Nat) (hj : j < m) (dflt : String) :
    ((List.range' 1 m).map f).getD j dflt = f (1 + j) := by
  rw [List.getD_eq_getElem _ _ (by simpa using hj)]
  simp [List.getElem_range']

theorem growth_getD (d : FinData) (j : Nat) (h2 : j + 1 < d.revenue.length)
    (dflt : String) :
    (revenue_growth_list d).getD (j + 1) dflt =
      if 0 < d.revenue.getD j 0 then
        format2 ((((d.revenue.getD (j + 1) 0 : Int) : ℚ) /
          ((d.revenue.getD j 0 : Int) : ℚ) - 1) * 100) ++ "%"
      else "-" := by
  rw [revenue_growth_list, List.getD_cons_succ, range1_map_getD _ _ _ (by omega)]
  have h' : 1 + j - 1 = j := by omega
  have h'' : 1 + j = j + 1 := by omega
  rw [h', h'']

/-- C7 (confirmed): every ratio guards its denominator strictly against
zero and negative values — the growth, margin, ROE and debt-ratio entries
are the sentinel `"-"` whenever the respective denominator (prior-year
revenue, revenue, equity, assets) is ≤ 0.  `calculate_financial_ratios` is a
total function of the dataset: no division is performed outside these
guards, so no arithmetic error can arise. -/
theorem c7_ratio_guards (d : FinData) (i : Nat) :
    (∀ j, i = j + 1 → i < d.revenue.length → d.revenue.getD j 0 ≤ 0 →
      (calculate_financial_ratios d).revenue_growth.getD i "" = "-") ∧
    (i < d.revenue.length → d.revenue.getD i 0 ≤ 0 →
      (calculate_financial_ratios d).profit_margin.getD i "" = "-" ∧
      (calculate_financial_ratios d).net_margin.getD i "" = "-") ∧
    (i < d.equity.length → d.equity.getD i 0 ≤ 0 →
      (calculate_financial_ratios d).roe.getD i "" = "-") ∧
    (i < d.assets.length → d.assets.getD i 0 ≤ 0 →
      (calculate_financial_ratios d).debt_ratios.getD i "" = "-") := by
  refine ⟨?_, ?_, ?_, ?_⟩
  · rintro j rfl hlen hle
    show (revenue_growth_list d).getD (j + 1) "" = "-"
    rw [growth_getD d j hlen, if_neg (not_lt.2 hle)]
  · intro hlen hle
    constructor
    · show (profit_margin_list d).getD i "" = "-"
      rw [profit_margin_list, range_map_getD _ _ _ hlen, if_neg (not_lt.2 hle)]
    · show (net_margin_list d).getD i "" = "-"
      rw [net_margin_list, range_map_getD _ _ _ hlen, if_neg (not_lt.2 hle)]
  · intro hlen hle
    show (roe_list d).getD i "" = "-"
    rw [roe_list, range_map_getD _ _ _ hlen, if_neg (not_lt.2 hle)]
  · intro hlen hle
    show (debt_ratio_list d).getD i "" = "-"
    rw [debt_ratio_list, range_map_getD _ _ _ hlen, if_neg (not_lt.2 hle)]

/-- A dataset with zero revenue/equity/assets in its first year. -/
def c7scen : FinData := ⟨[0, 4], [3, 1], [0, 2], [0, 5], [1, 1], [1, 1], [2020, 2021]⟩

/-- C7 witness: the guards fire on the zero denominators of `c7scen`. -/
theorem c7_witness :
    (calculate_financial_ratios c7scen).revenue_growth.getD 1 "" = "-" ∧
    (calculate_financial_ratios c7scen).profit_margin.getD 0 "" = "-" ∧
    (calculate_financial_ratios c7scen).net_margin.getD 0 "" = "-" ∧
    (calculate_financial_ratios c7scen).roe.getD 0 "" = "-" ∧
    (calculate_financial_ratios c7scen).debt_ratios.getD 0 "" = "-" := by
  have h1 := (c7_ratio_guards c7scen 1).1 0 rfl (by decide) (by decide)
  have h2 := (c7_ratio_guards c7scen 0).2.1 (by decide) (by decide)
  have h3 := (c7_ratio_guards c7scen 0).2.2.1 (by decide) (by decide)
  have h4 := (c7_ratio_guards c7scen 0).2.2.2 (by decide) (by decide)
  exact ⟨h1, h2.1, h2.2, h3, h4⟩

/-- The growth scenario dataset with revenue 1000, 1100, 1210. -/
def scen8 : FinData := ⟨[], [], [], [1000, 1100, 1210], [], [], [2021, 2022, 2023]⟩

/-- C8 (confirmed): the growth list starts with the sentinel `"-"` for every
dataset; for `i ≥ 1` with positive prior revenue the entry is
`(revenue[i]/revenue[i-1] - 1) * 100` formatted to two decimals with a `%`
suffix (and `"-"` otherwise, per C7); and revenue `[1000, 1100, 1210]`
yields `["-", "10.00%", "10.00%"]`. -/
theorem c8_growth (d : FinData) (i : Nat) :
    (calculate_financial_ratios d).revenue_growth.getD 0 "" = "-" ∧
    (∀ j, i = j + 1 → i < d.revenue.length → 0 < d.revenue.getD j 0 →
      (calculate_financial_ratios d).revenue_growth.getD i "" =
        format2 ((((d.revenue.getD i 0 : Int) : ℚ) /
          ((d.revenue.getD j 0 : Int) : ℚ) - 1) * 100) ++ "%") ∧
    (calculate_financial_ratios scen8).revenue_growth = ["-", "10.00%", "10.00%"] := by
  refine ⟨rfl, ?_, by decide⟩
  rintro j rfl hlen hpos
  show (revenue_growth_list d).getD (j + 1) "" = _
  rw [growth_getD d j hlen, if_pos hpos]

/-- C8 witness: instantiation at the scenario dataset, index 1. -/
theorem c8_witness :
    (calculate_financial_ratios scen8).revenue_growth.getD 0 "" = "-" ∧
    (calculate_financial_ratios scen8).revenue_growth.getD 1 "" =
      format2 ((((scen8.revenue.getD 1 0 : Int) : ℚ) /
        ((scen8.revenue.getD 0 0 : Int) : ℚ) - 1) * 100) ++ "%" :=
  ⟨(c8_growth scen8 1).1, (c8_growth scen8 1).2.1 0 rfl (by decide) (by decide)⟩

/-! ### Extraction lemmas and claims C2, C9 -/

theorem idxOfFirst_cons_self (c : Char) (l : List Char) : idxOfFirst c (c :: l) = some 0 := by
  simp [idxOfFirst]

theorem idxOfFirst_append_of_not_mem {c : Char} {P : List Char} (h : c ∉ P) (l : List Char) :
    idxOfFirst c (P ++ l) = (idxOfFirst c l).map (· + P.length) := by
  induction P with
  | nil => cases hI : idxOfFirst c l <;> simp [hI]
  | cons a t ih =>
    have h1 : ¬ a = c := fun he => h (he ▸ List.mem_cons_self a t)
    have h2 : c ∉ t := fun hm => h (List.mem_cons_of_mem a hm)
    simp only [List.cons_append, idxOfFirst, List.append_eq, if_neg h1]
    rw [ih h2]
    cases hI : idxOfFirst c l <;> simp [hI, Nat.add_assoc]

theorem idxOfLast_eq_none {c : Char} {l : List Char} (h : c ∉ l) : idxOfLast c l = none := by
  induction l with
  | nil => rfl
  | cons a t ih =>
    have h1 : ¬ a = c := fun he => h (he ▸ List.mem_cons_self a t)
    have h2 : c ∉ t := fun hm => h (List.mem_cons_of_mem a hm)
    simp [idxOfLast, ih h2, if_neg h1]

theorem idxOfLast_append_of_not_mem {c : Char} (P : List Char) {l : List Char} (h : c ∉ l) :
    idxOfLast c (P ++ l) = idxOfLast c P := by
  induction P with
  | nil => simpa using idxOfLast_eq_none h
  | cons a t ih => simp only [List.cons_append, idxOfLast, List.append_eq, ih]

theorem idxOfLast_append_singleton (c : Char) (P : List Char) :
    idxOfLast c (P ++ [c]) = some P.length := by
  induction P with
  | nil => simp [idxOfLast]
  | cons a t ih => simp [List.cons_append, idxOfLast, ih]

theorem dropWhile_append_cons (p : Char → Bool) (P : List Char) (a : Char) (t : List Char)
    (ha : p a = false) :
    (P ++ a :: t).dropWhile p = P.dropWhile p ++ a :: t := by
  rw [List.dropWhile_append]
  split
  next h =>
    rw [List.isEmpty_iff] at h
    rw [h, List.dropWhile_cons, ha]
    simp
  next h => rfl

/-- Stripping a text of the form `prose ++ brace-block ++ prose` strips only
the outer prose: the block's braces stop the whitespace scan on both sides. -/
theorem stripChars_sandwich (P mid Q : List Char) :
    stripChars (P ++ (lbrace :: mid ++ [rbrace]) ++ Q) =
      P.dropWhile pyWs ++ (lbrace :: mid ++ [rbrace]) ++
        (Q.reverse.dropWhile pyWs).reverse := by
  have hb1 : pyWs lbrace = false := by decide
  have hb2 : pyWs rbrace = false := by decide
  rw [stripChars]
  rw [show P ++ (lbrace :: mid ++ [rbrace]) ++ Q
      = P ++ lbrace :: (mid ++ [rbrace] ++ Q) by simp]
  rw [dropWhile_append_cons pyWs P lbrace _ hb1]
  rw [show (P.dropWhile pyWs ++ lbrace :: (mid ++ [rbrace] ++ Q)).reverse
      = Q.reverse ++ rbrace :: (mid.reverse ++ lbrace :: (P.dropWhile pyWs).reverse) by
    simp]
  rw [dropWhile_append_cons pyWs Q.reverse rbrace _ hb2]
  simp

/-- On a text of the form `prose ++ brace-block ++ prose`, with no braces in
the prose, the greedy regex extracts exactly the block. -/
theorem extract_sandwich (P mid Q : List Char) (hP : lbrace ∉ P) (hQ : rbrace ∉ Q) :
    extractBraceBlock (P ++ (lbrace :: mid ++ [rbrace]) ++ Q) =
      some (lbrace :: mid ++ [rbrace]) := by
  have hfirst : idxOfFirst lbrace (P ++ (lbrace :: mid ++ [rbrace]) ++ Q) = some P.length := by
    rw [show P ++ (lbrace :: mid ++ [rbrace]) ++ Q
        = P ++ lbrace :: (mid ++ [rbrace] ++ Q) by simp,
      idxOfFirst_append_of_not_mem hP, idxOfFirst_cons_self]
    simp
  have hlast : idxOfLast rbrace (P ++ (lbrace :: mid ++ [rbrace]) ++ Q)
      = some ((P ++ lbrace :: mid).length) := by
    rw [show P ++ (lbrace :: mid ++ [rbrace]) ++ Q
        = ((P ++ lbrace :: mid) ++ [rbrace]) ++ Q by simp,
      idxOfLast_append_of_not_mem _ hQ, idxOfLast_append_singleton]
  simp only [extractBraceBlock, hfirst, hlast]
  rw [if_pos (show P.length < (P ++ lbrace :: mid).length by simp)]
  rw [show P ++ (lbrace :: mid ++ [rbrace]) ++ Q
      = P ++ ((lbrace :: mid ++ [rbrace]) ++ Q) by simp,
    List.drop_left]
  rw [show (P ++ lbrace :: mid).length - P.length + 1 = (lbrace :: mid ++ [rbrace]).length by
    simp]
  rw [List.take_left]

/-- C2 (corrected): the regex takes the segment from the first `\x7b` to the
last `\x7d` of the whole text (greedy match), not the first balanced block;
so prose followed by a JSON object is decoded successfully exactly when the
surrounding prose contributes no braces of its own.  Under that proviso the
parser returns a success carrying exactly the decoded object, ignoring the
prose on both sides. -/
theorem c2_brace_block_extraction (p q : String) (mid : List Char) (v : Json)
    (hp : lbrace ∉ p.data ∧ rbrace ∉ p.data)
    (hq : lbrace ∉ q.data ∧ rbrace ∉ q.data)
    (hjson : jsonParseChars (lbrace :: mid ++ [rbrace]) = some v) :
    analyze_company_value_parse (p ++ (⟨lbrace :: mid ++ [rbrace]⟩ : String) ++ q) =
      .success v := by
  have hdata : (p ++ (⟨lbrace :: mid ++ [rbrace]⟩ : String) ++ q).data
      = p.data ++ (lbrace :: mid ++ [rbrace]) ++ q.data := by
    rw [String.data_append, String.data_append]
  have hP' : lbrace ∉ p.data.dropWhile pyWs :=
    fun hm => hp.1 ((List.dropWhile_sublist pyWs).mem hm)
  have hQ' : rbrace ∉ (q.data.reverse.dropWhile pyWs).reverse := by
    intro hm
    have h1 : rbrace ∈ q.data.reverse.dropWhile pyWs := List.mem_reverse.1 hm
    have h2 : rbrace ∈ q.data.reverse := (List.dropWhile_sublist pyWs).mem h1
    exact hq.2 (List.mem_reverse.1 h2)
  have hstage : decodeStage (stripChars
      (p ++ (⟨lbrace :: mid ++ [rbrace]⟩ : String) ++ q).data) = some v := by
    rw [hdata, stripChars_sandwich]
    unfold decodeStage
    rw [extract_sandwich _ _ _ hP' hQ']
    exact hjson
  unfold analyze_company_value_parse
  rw [hstage]

/-- The prose part of the C2 counterexample; it contains a brace pair of
its own. -/
def c2prose : String := "Note \x7bcaveat\x7d applies. "

/-- The JSON tail of the C2 counterexample. -/
def c2json : String := "\x7b\"a\": 1\x7d"

/-- C2 counterexample: prose followed by a decodable JSON object, where the
prose itself mentions a brace pair.  The greedy pattern captures from the
first prose brace to the end, the capture fails to decode, and the parser
returns the error outcome — not a success carrying the decoded object, as
the claim requires for every such text. -/
theorem c2_counterexample :
    jsonParse c2json = some (.obj [("a", .num 1)]) ∧
    analyze_company_value_parse (c2prose ++ c2json) =
      .parseError (c2prose ++ c2json) := by
  exact ⟨rfl, rfl⟩

/-- C2 witness: prose followed by a fenced JSON object, no stray braces. -/
theorem c2_witness :
    analyze_company_value_parse
        ("Result:\n```json\n" ++ (⟨lbrace :: ("\"a\": 1").data ++ [rbrace]⟩ : String) ++ "\n```")
      = .success (.obj [("a", .num 1)]) :=
  c2_brace_block_extraction "Result:\n```json\n" "\n```" ("\"a\": 1").data
    (.obj [("a", .num 1)]) ⟨by decide, by decide⟩ ⟨by decide, by decide⟩ (by rfl)

/-- C9 (corrected): when neither the extracted brace block nor the whole
trimmed text decodes as JSON, the parser returns the error outcome — an
ordinary value, not an exception — carrying the *trimmed* backend text as
`raw_content`; that equals the original raw text exactly when the raw text
has no leading or trailing whitespace (the source stores `content`, i.e. the
`.strip()`ped response, not the original). -/
theorem c9_error_retains_text (s : String)
    (h : decodeStage (stripChars s.data) = none) :
    analyze_company_value_parse s = .parseError ⟨stripChars s.data⟩ ∧
    (stripChars s.data = s.data → analyze_company_value_parse s = .parseError s) := by
  have hmain : analyze_company_value_parse s = .parseError ⟨stripChars s.data⟩ := by
    unfold analyze_company_value_parse
    rw [h]
  refine ⟨hmain, fun he => ?_⟩
  rw [hmain, he]

/-- A prose-only response padded with whitespace. -/
def c9text : String := " plain prose "

/-- C9 counterexample: a whitespace-padded undecodable response.  The error
outcome carries the stripped text, which differs from the original raw
text — the result does not hold the original "unmodified". -/
theorem c9_counterexample :
    analyze_company_value_parse c9text = .parseError "plain prose" ∧
    "plain prose" ≠ c9text := by
  exact ⟨rfl, by decide⟩

/-- C9 witness: an unpadded undecodable response is retained verbatim. -/
theorem c9_witness :
    analyze_company_value_parse "no json here" = .parseError "no json here" :=
  (c9_error_retains_text "no json here" (by rfl)).2 (by rfl)

end Capstone
